import Mathlib

/-!
Verification development for the serverless AWS ML stack handler
(`handler.py`).

The Python source is shallowly embedded:

* Python strings are `List Char`; `str.split(sep)` for a one-character
  separator is `splitOnChar`, `sep.join` is `joinWith`, `str.strip()` is
  `pyStrip`.
* Parsed JSON values are the inductive type `Json`; dictionary access
  `d[k]` is `dictGet` (raising `KeyError` for a missing key) and
  `d.get(k)` is `dictGetOpt`.
* The external AWS / network services (Textract OCR, Comprehend,
  Polly, Transcribe, Rekognition, HTTP fetch, the JSON parser) are
  oracles collected in an `Env` record; a call that may raise returns
  `Except` with the exception text.
* A Python function that may raise an exception past its own frame is
  embedded as returning `Except (List Char) Response`; a function whose
  body is wrapped in a `try/except` returning a 500 is total and
  returns `Response` directly.
-/

/-! ## Python string primitives -/

/-- Whitespace characters stripped by Python `str.strip()` (ASCII part). -/
def isPySpace (c : Char) : Bool :=
  c = ' ' || c = '\t' || c = '\n' || c = '\x0b' || c = '\x0c' || c = '\r'

/-- Python `str.strip()`: drop leading and trailing whitespace. -/
def pyStrip (l : List Char) : List Char :=
  ((l.dropWhile isPySpace).reverse.dropWhile isPySpace).reverse

/-- Python `str.startswith(p)`. -/
def startsWith : List Char → List Char → Bool
  | [], _ => true
  | _ :: _, [] => false
  | p :: ps, c :: cs => p = c && startsWith ps cs

/-- Python `text.split(sep)` for a single-character separator.  Note
`"".split(sep) == [""]`: the result is never the empty list. -/
def splitOnChar (sep : Char) : List Char → List (List Char)
  | [] => [[]]
  | c :: cs =>
    if c = sep then [] :: splitOnChar sep cs
    else
      match splitOnChar sep cs with
      | [] => [[c]]
      | l :: ls => (c :: l) :: ls

/-- Python `sep.join(pieces)` for a single-character separator. -/
def joinWith (sep : Char) : List (List Char) → List Char
  | [] => []
  | [l] => l
  | l :: ls => l ++ sep :: joinWith sep ls

/-! ## The Line Cleaner (`clean_extracted_text`, handler.py lines 27-38) -/

/-- The loop body of `clean_extracted_text`: for each line, if it does not
start with `http://` or `https://`, and its (pre-strip) length exceeds 4,
append the stripped line. -/
def cleanLines : List (List Char) → List (List Char)
  | [] => []
  | line :: rest =>
    if !(startsWith "http://".toList line || startsWith "https://".toList line) then
      if line.length > 4 then
        pyStrip line :: cleanLines rest
      else cleanLines rest
    else cleanLines rest

/-- `clean_extracted_text(text)`: split on newlines, filter and strip the
lines, join the survivors with newlines. -/
def clean_extracted_text (text : List Char) : List Char :=
  joinWith '\n' (cleanLines (splitOnChar '\n' text))

/-- The combined keep-condition of the two nested `if`s of
`clean_extracted_text`. -/
def keepLine (line : List Char) : Bool :=
  !(startsWith "http://".toList line || startsWith "https://".toList line)
    && decide (line.length > 4)

/-! ## JSON values and Python dictionary access -/

/-- Parsed JSON values (the result of `json.loads`). -/
inductive Json where
  | null : Json
  | bool (b : Bool) : Json
  | num (n : Int) : Json
  | str (s : List Char) : Json
  | arr (xs : List Json) : Json
  | obj (fields : List (List Char × Json)) : Json

/-- First binding of a key in an association list (Python dict lookup). -/
def assocGet (k : List Char) : List (List Char × Json) → Option Json
  | [] => none
  | (k2, v) :: rest => if k2 = k then some v else assocGet k rest

/-- Python `d[k]`: a missing key raises `KeyError(k)`; subscripting a
non-dictionary raises a `TypeError` (whose message text is abstracted). -/
def dictGet (j : Json) (k : List Char) : Except (List Char) Json :=
  match j with
  | .obj fields =>
    match assocGet k fields with
    | some v => .ok v
    | none => .error ("\x27".toList ++ k ++ "\x27".toList)
  | _ => .error "TypeError: value is not subscriptable".toList

/-- Python `d.get(k)`: `none` models Python `None` for a missing key;
calling `.get` on a non-dictionary raises an `AttributeError`. -/
def dictGetOpt (j : Json) (k : List Char) : Except (List Char) (Option Json) :=
  match j with
  | .obj fields => .ok (assocGet k fields)
  | _ => .error "AttributeError: object has no attribute get".toList

/-- Python truthiness of a JSON value (`bool(x)`). -/
def truthy : Json → Bool
  | .null => false
  | .bool b => b
  | .num n => n ≠ 0
  | .str s => !s.isEmpty
  | .arr xs => !xs.isEmpty
  | .obj fields => !fields.isEmpty

/-- Python `x == "lit"` for a JSON value `x`: true exactly when `x` is the
given string (comparison with a value of another type is `False`). -/
def jsonEqStr : Json → List Char → Bool
  | .str s, t => s = t
  | _, _ => false

/-- `x == "lit"` where `x` came from `d.get(k)` and may be `None`. -/
def optJsonEqStr : Option Json → List Char → Bool
  | some j, t => jsonEqStr j t
  | none, _ => false

/-- Python `str(x)` for a JSON value, as used in f-string interpolation.
The rendering of composite values is abbreviated in this model; no
verified property depends on it. -/
def pyStr : Json → List Char
  | .str s => s
  | .null => "None".toList
  | .bool true => "True".toList
  | .bool false => "False".toList
  | .num n => (toString n).toList
  | .arr _ => "[...]".toList
  | .obj _ => "\x7b...\x7d".toList

/-- Helper: the body shape of every error response in handler.py,
`json.dumps({"error": msg})`. -/
def errJson (msg : List Char) : Json :=
  Json.obj [("error".toList, Json.str msg)]

/-! ## Responses, events and the external world -/

/-- The HTTP-style response envelope.  Every headers block in the source
is the identical CORS dictionary, so its presence is modelled as a
boolean.  The body is kept as the JSON value passed to `json.dumps`. -/
structure Response where
  statusCode : Nat
  corsHeaders : Bool
  body : Json

/-- The incoming Lambda event: only `event["body"]` (a raw string, absent
when the key is missing) is ever read by the source. -/
structure Event where
  body : Option (List Char)

/-- One block of a Textract `detect_document_text` response. -/
structure OcrBlock where
  blockType : List Char
  text : List Char

/-- Oracles for everything outside the source file: the JSON parser and
the network/AWS calls.  A `.error` result models the call raising an
exception carrying the given message text (`str(e)` in the source);
deterministic functions model that a repeated identical call within one
dispatch behaves identically. -/
structure Env where
  parseJson : List Char → Except (List Char) Json
  webGet : Json → Option (List Nat)
  b64decode : Json → Except (List Char) (List Nat)
  ocr : List Nat → Except (List Char) (List OcrBlock)
  sentiment : Json → Except (List Char) (Json × Json)
  polly : Json → Except (List Char) (List Char)
  transcribeOutcome : Json → Except (List Char) (Option (List Char))
  rekogLabels : List Nat → Except (List Char) Json
  rekogFaces : List Nat → Except (List Char) Json

/-- `fetch_file_from_url` (handler.py lines 18-25): its `try/except`
catches every network-layer failure and returns `None`, so the observable
behaviour is exactly the `webGet` oracle. -/
def fetch_file_from_url (env : Env) (url : Json) : Option (List Nat) :=
  env.webGet url

/-! ## Document-Text Extractor (`textract_handler`, lines 62-115) -/

/-- The OCR stage of `textract_handler` (lines 88-108): submit the bytes,
collect the texts of the LINE blocks in order, clean them, and re-split
on newline into the response body. -/
def textract_ocr_stage (env : Env) (file_content : List Nat) :
    Except (List Char) Response :=
  match env.ocr file_content with
  | .error e => .error e
  | .ok blocks =>
    let results := (blocks.filter fun b => b.blockType = "LINE".toList).map OcrBlock.text
    let cleaned_results := clean_extracted_text (joinWith '\n' results)
    .ok ⟨200, true, Json.arr ((splitOnChar '\n' cleaned_results).map Json.str)⟩

/-- The body of `textract_handler`'s `try` block (lines 63-108); a
`.error` result is an exception reaching the enclosing `except`. -/
def textract_run (env : Env) (event : Event) : Except (List Char) Response :=
  match event.body with
  | none => .error "\x27body\x27".toList
  | some bodyStr =>
  match env.parseJson bodyStr with
  | .error e => .error e
  | .ok body =>
  match dictGet body "source_type".toList with
  | .error e => .error e
  | .ok source_type =>
  if truthy source_type = false then
    .ok ⟨400, false, errJson "Missing or invalid \x27source_type\x27 in the request.".toList⟩
  else
  match dictGet body "file_content".toList with
  | .error e => .error e
  | .ok file_content_data =>
  if jsonEqStr source_type "url".toList then
    match fetch_file_from_url env file_content_data with
    | none => .ok ⟨400, false, errJson "Unable to fetch content from the provided URL.".toList⟩
    | some file_content => textract_ocr_stage env file_content
  else if jsonEqStr source_type "upload".toList then
    match env.b64decode file_content_data with
    | .error e => .error e
    | .ok file_content => textract_ocr_stage env file_content
  else
    .ok ⟨400, false, errJson "Invalid source_type".toList⟩

/-- `textract_handler`: the catch-all `except` turns any exception into a
500 embedding the exception text. -/
def textract_handler (env : Env) (event : Event) : Response :=
  match textract_run env event with
  | .ok r => r
  | .error e => ⟨500, false, errJson ("Failed to process the document: ".toList ++ e)⟩

/-! ## Sentiment Scorer (`comprehend_sentiment_handler`, lines 40-60) -/

/-- `comprehend_sentiment_handler`: one Comprehend call; any exception
becomes a 500. -/
def comprehend_sentiment_handler (env : Env) (text : Json) : Response :=
  match env.sentiment text with
  | .ok (s, score) =>
    ⟨200, true, Json.obj [("Sentiment".toList, s), ("SentimentScore".toList, score)]⟩
  | .error e => ⟨500, false, errJson ("Failed to analyze sentiment: ".toList ++ e)⟩

/-! ## Extract-and-Score Composer (`textract_comprehend_handler`, lines 117-144) -/

/-- Reads a JSON value as a list of strings (the shape `" ".join(...)`
accepts after `json.loads` of a textract success body). -/
def strListOfJson : Json → Option (List (List Char))
  | .arr xs => strList xs
  | _ => none
where
  strList : List Json → Option (List (List Char))
    | [] => some []
    | .str s :: rest => (strList rest).map (s :: ·)
    | _ => none

/-- `textract_comprehend_handler`: run the extractor; on a non-200 status
return its response unchanged; otherwise join the extracted lines with
single spaces, score the blob, and assemble the combined 200 result.  The
function has no `try/except`, so a `join` over a non-string-list body
would raise (the `.error` branch; proved unreachable below).  Note the
sentiment response's status code is never inspected. -/
def textract_comprehend_handler (env : Env) (event : Event) :
    Except (List Char) Response :=
  let textract_response := textract_handler env event
  if textract_response.statusCode ≠ 200 then .ok textract_response
  else
    match strListOfJson textract_response.body with
    | none => .error "TypeError: sequence item is not a string".toList
    | some lines =>
      let extracted_text := joinWith ' ' lines
      let sentiment_response := comprehend_sentiment_handler env (Json.str extracted_text)
      .ok ⟨200, true, Json.obj
        [("ExtractedText".toList, Json.arr ((splitOnChar ' ' extracted_text).map Json.str)),
         ("SentimentAnalysis".toList, sentiment_response.body)]⟩

/-! ## The remaining single-call wrappers -/

/-- `polly_handler` (lines 146-167): one Polly call; any exception
becomes a 500. -/
def polly_handler (env : Env) (text : Json) : Response :=
  match env.polly text with
  | .ok encoded_audio => ⟨200, true, Json.obj [("audio".toList, Json.str encoded_audio)]⟩
  | .error e => ⟨500, false, errJson ("Failed to convert text to speech: ".toList ++ e)⟩

/-- `transcribe_handler` (lines 169-212): upload, submit, poll, fetch.
It has no `try/except`, so any exception in the workflow escapes
(`.error`); a COMPLETED job yields a 200 with the transcript, a FAILED
job a 500.  The unbounded polling loop's possible divergence is outside
this model. -/
def transcribe_handler (env : Env) (audio : Json) : Except (List Char) Response :=
  match env.transcribeOutcome audio with
  | .error e => .error e
  | .ok (some transcription_text) =>
    .ok ⟨200, true, Json.obj [("transcription".toList, Json.str transcription_text)]⟩
  | .ok none => .ok ⟨500, false, errJson "Failed to transcribe the audio.".toList⟩

/-- The body of `rekognition_handler`'s `try` block (lines 215-280). -/
def rekognition_run (env : Env) (rekognition_type image_data : Json) :
    Except (List Char) Response :=
  if truthy rekognition_type = false then
    .ok ⟨400, true, errJson "Missing \x27rekognition_type\x27 in the request.".toList⟩
  else if truthy image_data = false then
    .ok ⟨400, true, errJson "Missing \x27image_data\x27.".toList⟩
  else
    match env.b64decode image_data with
    | .error e => .error e
    | .ok image_bytes =>
      if jsonEqStr rekognition_type "label".toList then
        match env.rekogLabels image_bytes with
        | .error e => .error e
        | .ok labels => .ok ⟨200, true, Json.obj [("labels".toList, labels)]⟩
      else if jsonEqStr rekognition_type "detect_faces".toList then
        match env.rekogFaces image_bytes with
        | .error e => .error e
        | .ok faces => .ok ⟨200, true, Json.obj [("faces".toList, faces)]⟩
      else
        .ok ⟨400, false, errJson ("Invalid \x27rekognition_type\x27 specified: ".toList
          ++ pyStr rekognition_type)⟩

/-- `rekognition_handler`: the catch-all `except` turns any exception
into a 500 embedding the exception text. -/
def rekognition_handler (env : Env) (rekognition_type image_data : Json) : Response :=
  match rekognition_run env rekognition_type image_data with
  | .ok r => r
  | .error e => ⟨500, false, errJson ("Failed to process the image: ".toList ++ e)⟩

/-! ## Action Dispatcher (`lambda_handler`, lines 289-350) -/

/-- `lambda_handler`: parse the envelope, select a handler by `action`,
validate the per-action required fields, and relay the handler's
response.  `lambda_handler` itself has no `try/except`: a failure of
`event["body"]`, of `json.loads`, of `.get` on a non-dictionary, or an
exception escaping `textract_comprehend_handler`/`transcribe_handler`
propagates out of the invocation (`.error`). -/
def lambda_handler (env : Env) (event : Event) : Except (List Char) Response :=
  match event.body with
  | none => .error "\x27body\x27".toList
  | some bodyStr =>
  match env.parseJson bodyStr with
  | .error e => .error e
  | .ok body =>
  match dictGetOpt body "action".toList with
  | .error e => .error e
  | .ok action =>
  if optJsonEqStr action "textract".toList then
    .ok (textract_handler env event)
  else if optJsonEqStr action "comprehend".toList then
    match dictGetOpt body "text".toList with
    | .error e => .error e
    | .ok none => .ok ⟨400, false, errJson "Missing text for sentiment analysis.".toList⟩
    | .ok (some text) =>
      if truthy text = false then
        .ok ⟨400, false, errJson "Missing text for sentiment analysis.".toList⟩
      else .ok (comprehend_sentiment_handler env text)
  else if optJsonEqStr action "textract-comprehend".toList then
    textract_comprehend_handler env event
  else if optJsonEqStr action "polly".toList then
    match dictGetOpt body "text".toList with
    | .error e => .error e
    | .ok none => .ok ⟨400, false, errJson "Missing text for text to speech conversion.".toList⟩
    | .ok (some text) =>
      if truthy text = false then
        .ok ⟨400, false, errJson "Missing text for text to speech conversion.".toList⟩
      else .ok (polly_handler env text)
  else if optJsonEqStr action "transcribe".toList then
    match dictGetOpt body "audio_base64".toList with
    | .error e => .error e
    | .ok none => .ok ⟨400, false, errJson "Missing audio for transcription.".toList⟩
    | .ok (some audio_base64) =>
      if truthy audio_base64 = false then
        .ok ⟨400, false, errJson "Missing audio for transcription.".toList⟩
      else transcribe_handler env audio_base64
  else if optJsonEqStr action "rekognition".toList then
    match dictGetOpt body "rekognition_type".toList with
    | .error e => .error e
    | .ok rtOpt =>
    match dictGetOpt body "image_data".toList with
    | .error e => .error e
    | .ok imgOpt =>
    match rtOpt with
    | none => .ok ⟨400, false, errJson "Missing \x27rekognition_type\x27 in the request.".toList⟩
    | some rekognition_type =>
      if truthy rekognition_type = false then
        .ok ⟨400, false, errJson "Missing \x27rekognition_type\x27 in the request.".toList⟩
      else
        match imgOpt with
        | none => .ok ⟨400, false, errJson "Missing \x27image_data\x27.".toList⟩
        | some image_data =>
          if truthy image_data = false then
            .ok ⟨400, false, errJson "Missing \x27image_data\x27.".toList⟩
          else .ok (rekognition_handler env rekognition_type image_data)
  else
    .ok ⟨400, false, errJson "Invalid action specified.".toList⟩

/-! ## Stub environments for concrete scenarios -/

/-- A fully stubbed external world; individual scenarios below override
the oracles they exercise. -/
def stubEnv : Env where
  parseJson := fun _ => .ok Json.null
  webGet := fun _ => none
  b64decode := fun _ => .ok []
  ocr := fun _ => .ok []
  sentiment := fun _ => .ok (Json.null, Json.null)
  polly := fun _ => .ok []
  transcribeOutcome := fun _ => .ok none
  rekogLabels := fun _ => .ok Json.null
  rekogFaces := fun _ => .ok Json.null

/-- Environment for the C3 scenario: the request body parses to an empty
JSON object (no `source_type` field). -/
def c3Env : Env :=
  { stubEnv with parseJson := fun _ => .ok (Json.obj []) }

/-- Environment for the C4 witness: the body parses to
`\x7b"action": "bogus"\x7d`. -/
def c4Env : Env :=
  { stubEnv with
    parseJson := fun _ => .ok (Json.obj [("action".toList, Json.str "bogus".toList)]) }

/-- Environment for the C6 scenario: a valid upload request, OCR
returning the single line `Hello!`, and a sentiment service that
raises `boom`. -/
def c6Env : Env :=
  { stubEnv with
    parseJson := fun _ => .ok (Json.obj
      [("source_type".toList, Json.str "upload".toList),
       ("file_content".toList, Json.str "x".toList)]),
    b64decode := fun _ => .ok [0],
    ocr := fun _ => .ok [⟨"LINE".toList, "Hello!".toList⟩],
    sentiment := fun _ => .error "boom".toList }

/-- Environment for the C7 witness: OCR returns the lines
`Hello world` and `  ok   `; the cleaner keeps both (lengths 11 and 7)
and strips the second to `ok`, so extraction returns
`["Hello world", "ok"]`; the sentiment stub returns `NEUTRAL`. -/
def c7Env : Env :=
  { stubEnv with
    parseJson := fun _ => .ok (Json.obj
      [("source_type".toList, Json.str "upload".toList),
       ("file_content".toList, Json.str "x".toList)]),
    b64decode := fun _ => .ok [0],
    ocr := fun _ => .ok [⟨"LINE".toList, "Hello world".toList⟩,
      ⟨"LINE".toList, "  ok   ".toList⟩],
    sentiment := fun _ => .ok (Json.str "NEUTRAL".toList, Json.obj []) }

/-- Environment for the C8 counterexample: a valid upload request whose
OCR output is the single line `Hi`. -/
def c8Env : Env :=
  { stubEnv with
    parseJson := fun _ => .ok (Json.obj
      [("source_type".toList, Json.str "upload".toList),
       ("file_content".toList, Json.str "x".toList)]),
    b64decode := fun _ => .ok [0],
    ocr := fun _ => .ok [⟨"LINE".toList, "Hi".toList⟩] }

/-- Environment for the C8 witness, exercising the url resolution path:
a valid url request whose fetch succeeds and whose OCR output is the
single line `Hi`. -/
def c8UrlEnv : Env :=
  { stubEnv with
    parseJson := fun _ => .ok (Json.obj
      [("source_type".toList, Json.str "url".toList),
       ("file_content".toList, Json.str "http://d".toList)]),
    webGet := fun _ => some [0],
    ocr := fun _ => .ok [⟨"LINE".toList, "Hi".toList⟩] }

/-- Environment for the C9 counterexample: the JSON parser rejects the
request body. -/
def c9Env : Env :=
  { stubEnv with
    parseJson := fun _ => .error "Expecting value: line 1 column 1 (char 0)".toList }

/-- Environment for the C10 witness: the body carries only
`action = "rekognition"`, so the dispatcher's own (headerless) 400 for
the missing `rekognition_type` is returned. -/
def c10Env : Env :=
  { stubEnv with
    parseJson := fun _ =>
      .ok (Json.obj [("action".toList, Json.str "rekognition".toList)]) }

/-! ## Basic lemmas about the string primitives -/

theorem cleanLines_eq_map_filter (ls : List (List Char)) :
    cleanLines ls = (ls.filter keepLine).map pyStrip := by
  induction ls with
  | nil => rfl
  | cons l rest ih =>
    simp only [cleanLines, List.filter, keepLine]
    cases hA : (startsWith "http://".toList l || startsWith "https://".toList l) with
    | true => simpa [hA] using ih
    | false =>
      by_cases hl : l.length > 4
      · simpa [hA, hl] using congrArg (pyStrip l :: ·) ih
      · simpa [hA, hl] using ih

theorem splitOnChar_ne_nil (sep : Char) (t : List Char) : splitOnChar sep t ≠ [] := by
  induction t with
  | nil => simp [splitOnChar]
  | cons c cs ih =>
    simp only [splitOnChar]
    by_cases h : c = sep
    · simp [h]
    · simp only [h, if_false]
      cases hs : splitOnChar sep cs with
      | nil => exact absurd hs ih
      | cons l ls => simp

theorem not_mem_of_mem_splitOnChar (sep : Char) (t : List Char) :
    ∀ l ∈ splitOnChar sep t, sep ∉ l := by
  induction t with
  | nil => intro l hl; simp [splitOnChar] at hl; simp [hl]
  | cons c cs ih =>
    intro l hl
    simp only [splitOnChar] at hl
    by_cases h : c = sep
    · rw [if_pos h] at hl
      rcases List.mem_cons.mp hl with rfl | hl
      · simp
      · exact ih l hl
    · rw [if_neg h] at hl
      cases hs : splitOnChar sep cs with
      | nil => exact absurd hs (splitOnChar_ne_nil sep cs)
      | cons l' ls =>
        rw [hs] at hl
        have hl2 : l ∈ (c :: l') :: ls := hl
        rcases List.mem_cons.mp hl2 with rfl | hl3
        · intro hmem
          rcases List.mem_cons.mp hmem with hc | hc
          · exact h hc.symm
          · exact ih l' (hs ▸ List.mem_cons_self l' ls) hc
        · exact ih l (hs ▸ List.mem_cons_of_mem l' hl3)

theorem splitOnChar_of_not_mem {sep : Char} {l : List Char} (h : sep ∉ l) :
    splitOnChar sep l = [l] := by
  induction l with
  | nil => rfl
  | cons c cs ih =>
    have hc : ¬ c = sep := fun hc => h (hc ▸ List.mem_cons_self c cs)
    have hcs : sep ∉ cs := fun hm => h (List.mem_cons_of_mem c hm)
    simp only [splitOnChar, hc, if_false, ih hcs]

theorem splitOnChar_append_cons {sep : Char} {l : List Char} (t : List Char)
    (h : sep ∉ l) : splitOnChar sep (l ++ sep :: t) = l :: splitOnChar sep t := by
  induction l with
  | nil => simp [splitOnChar]
  | cons c cs ih =>
    have hc : ¬ c = sep := fun hc => h (hc ▸ List.mem_cons_self c cs)
    have hcs : sep ∉ cs := fun hm => h (List.mem_cons_of_mem c hm)
    show splitOnChar sep (c :: (cs ++ sep :: t)) = (c :: cs) :: splitOnChar sep t
    simp only [splitOnChar, hc, if_false, ih hcs]

theorem splitOnChar_joinWith {sep : Char} {ls : List (List Char)} (hne : ls ≠ [])
    (h : ∀ l ∈ ls, sep ∉ l) : splitOnChar sep (joinWith sep ls) = ls := by
  induction ls with
  | nil => exact absurd rfl hne
  | cons l rest ih =>
    cases rest with
    | nil => exact splitOnChar_of_not_mem (h l (List.mem_cons_self l []))
    | cons l2 rest2 =>
      have h1 : sep ∉ l := h l (List.mem_cons_self _ _)
      have h2 : ∀ x ∈ l2 :: rest2, sep ∉ x := fun x hx => h x (List.mem_cons_of_mem l hx)
      simp only [joinWith, splitOnChar_append_cons _ h1, ih (by simp) h2]

theorem mem_dropWhile {p : Char → Bool} {c : Char} :
    ∀ {l : List Char}, c ∈ l.dropWhile p → c ∈ l := by
  intro l
  induction l with
  | nil => simp
  | cons a as ih =>
    intro h
    by_cases ha : p a
    · rw [List.dropWhile_cons_of_pos ha] at h
      exact List.mem_cons_of_mem a (ih h)
    · rwa [List.dropWhile_cons_of_neg ha] at h

theorem mem_pyStrip {c : Char} {l : List Char} (h : c ∈ pyStrip l) : c ∈ l := by
  unfold pyStrip at h
  rw [List.mem_reverse] at h
  have h1 := mem_dropWhile h
  rw [List.mem_reverse] at h1
  exact mem_dropWhile h1

theorem dropWhile_dropWhile (p : Char → Bool) (l : List Char) :
    (l.dropWhile p).dropWhile p = l.dropWhile p := by
  induction l with
  | nil => rfl
  | cons a as ih =>
    by_cases ha : p a
    · rw [List.dropWhile_cons_of_pos ha]; exact ih
    · rw [List.dropWhile_cons_of_neg ha, List.dropWhile_cons_of_neg ha]

theorem head?_dropWhile_false {p : Char → Bool} {l : List Char} {c : Char}
    (h : (l.dropWhile p).head? = some c) : p c = false := by
  induction l with
  | nil => simp [List.dropWhile] at h
  | cons a as ih =>
    by_cases ha : p a
    · rw [List.dropWhile_cons_of_pos ha] at h; exact ih h
    · rw [List.dropWhile_cons_of_neg ha] at h
      simp only [List.head?_cons, Option.some.injEq] at h
      subst h
      exact Bool.of_not_eq_true ha

theorem dropWhile_of_head_false {p : Char → Bool} {l : List Char}
    (h : ∀ c, l.head? = some c → p c = false) : l.dropWhile p = l := by
  cases l with
  | nil => rfl
  | cons a as =>
    have := h a rfl
    rw [List.dropWhile_cons_of_neg (by simp [this])]

theorem getLast?_dropWhile {p : Char → Bool} {l : List Char}
    (h : l.dropWhile p ≠ []) : (l.dropWhile p).getLast? = l.getLast? := by
  induction l with
  | nil => simp [List.dropWhile] at h
  | cons a as ih =>
    by_cases ha : p a
    · rw [List.dropWhile_cons_of_pos ha] at h ⊢
      rw [ih h]
      cases as with
      | nil => simp [List.dropWhile] at h
      | cons b bs => rw [List.getLast?_cons_cons]
    · rw [List.dropWhile_cons_of_neg ha]

theorem pyStrip_idem (l : List Char) : pyStrip (pyStrip l) = pyStrip l := by
  unfold pyStrip
  set u := l.dropWhile isPySpace with hu
  set v := (u.reverse).dropWhile isPySpace with hv
  have hvrev : v.reverse.dropWhile isPySpace = v.reverse := by
    apply dropWhile_of_head_false
    intro c hc
    cases hvnil : v with
    | nil => rw [hvnil] at hc; simp at hc
    | cons x xs =>
      rw [List.head?_reverse] at hc
      have hvne : (u.reverse).dropWhile isPySpace ≠ [] := by rw [← hv, hvnil]; simp
      have h1 : v.getLast? = u.reverse.getLast? := by
        rw [hv]; exact getLast?_dropWhile hvne
      rw [h1, List.getLast?_reverse] at hc
      exact head?_dropWhile_false (p := isPySpace) (l := l) (hu ▸ hc)
  have hdv : List.dropWhile isPySpace v = v := by
    rw [hv]; exact dropWhile_dropWhile _ _
  rw [hvrev, List.reverse_reverse, hdv]

/-! ## Claim C1 -/

/-- Claim C1 (counterexample): the input line `"  http://x.com"` does not
start with `http://` (it starts with a space), has length 14 > 4, and so
survives the Line Cleaner; the surviving (stripped) line is
`"http://x.com"`, whose trimmed form does start with `http://`.  This
refutes the claim that the URL-prefix test is applied to the line's
trimmed form: `clean_extracted_text` applies it to the raw line. -/
theorem C1_counterexample :
    clean_extracted_text ("  http://x.com".toList) = "http://x.com".toList ∧
      startsWith "http://".toList (pyStrip ("  http://x.com".toList)) = true := by
  constructor <;> rfl

/-- Claim C1 (amended): every line that survives the Line Cleaner is the
stripped form of an input line whose raw (pre-trim) form has length > 4
and does not start with `http://` or `https://` (the prefix test is
applied to the raw line, not its trimmed form); survivors keep the
relative input order (the kept raw lines form a sublist of the input
lines). -/
theorem C1_cleaner_characterization (t : List Char) :
    ∃ s : List (List Char),
      s.Sublist (splitOnChar '\n' t) ∧
      cleanLines (splitOnChar '\n' t) = s.map pyStrip ∧
      clean_extracted_text t = joinWith '\n' (s.map pyStrip) ∧
      ∀ l ∈ s,
        (startsWith "http://".toList l || startsWith "https://".toList l) = false ∧
        l.length > 4 := by
  refine ⟨(splitOnChar '\n' t).filter keepLine, List.filter_sublist _,
    cleanLines_eq_map_filter _, ?_, ?_⟩
  · unfold clean_extracted_text
    rw [cleanLines_eq_map_filter]
  · intro l hl
    have hk := List.of_mem_filter hl
    unfold keepLine at hk
    simp only [Bool.and_eq_true, Bool.not_eq_true', decide_eq_true_eq] at hk
    exact ⟨hk.1, hk.2⟩

/-! ## Claim C2 -/

/-- Claim C2 (counterexample): the Line Cleaner is not idempotent.  The
input `" abcd "` has length 6 > 4, so it survives and is stripped to
`"abcd"`; running the cleaner again drops `"abcd"` (length 4 is not > 4),
so the second application changes the result. -/
theorem C2_counterexample :
    clean_extracted_text (clean_extracted_text (" abcd ".toList)) ≠
      clean_extracted_text (" abcd ".toList) := by
  decide

theorem cleanLines_of_stable {ls : List (List Char)}
    (h : ∀ l ∈ ls, keepLine l = true ∧ pyStrip l = l) : cleanLines ls = ls := by
  rw [cleanLines_eq_map_filter]
  have hf : ls.filter keepLine = ls := List.filter_eq_self.mpr fun a ha => (h a ha).1
  rw [hf]
  calc ls.map pyStrip = ls.map id := List.map_congr_left fun a ha => (h a ha).2
    _ = ls := List.map_id ls

theorem clean_extracted_text_of_stable {ls : List (List Char)}
    (h : ∀ l ∈ ls, keepLine l = true ∧ pyStrip l = l ∧ '\n' ∉ l) :
    clean_extracted_text (joinWith '\n' ls) = joinWith '\n' ls := by
  cases hne : ls with
  | nil => rfl
  | cons l rest =>
    rw [← hne]
    unfold clean_extracted_text
    rw [splitOnChar_joinWith (by rw [hne]; simp) (fun x hx => (h x hx).2.2),
      cleanLines_of_stable (fun x hx => ⟨(h x hx).1, (h x hx).2.1⟩)]

theorem mem_cleanLines {o : List Char} {ls : List (List Char)}
    (h : o ∈ cleanLines ls) : ∃ l ∈ ls, keepLine l = true ∧ o = pyStrip l := by
  rw [cleanLines_eq_map_filter] at h
  rcases List.mem_map.mp h with ⟨l, hl, rfl⟩
  exact ⟨l, List.mem_of_mem_filter hl, List.of_mem_filter hl, rfl⟩

/-- Claim C2 (amended): although a single application of the Line Cleaner
is not idempotent, it stabilizes after two applications: a third
application returns the second application's output unchanged. -/
theorem C2_clean_stabilizes (t : List Char) :
    clean_extracted_text (clean_extracted_text (clean_extracted_text t)) =
      clean_extracted_text (clean_extracted_text t) := by
  -- Properties of the lines produced by one pass of the cleaner.
  have passProps : ∀ o ∈ cleanLines (splitOnChar '\n' t), pyStrip o = o ∧ '\n' ∉ o := by
    intro o ho
    rcases mem_cleanLines ho with ⟨l, hl, _, rfl⟩
    exact ⟨pyStrip_idem l, fun hm =>
      not_mem_of_mem_splitOnChar '\n' t l hl (mem_pyStrip hm)⟩
  by_cases hAnil : cleanLines (splitOnChar '\n' t) = []
  · have hct : clean_extracted_text t = [] := by
      unfold clean_extracted_text
      rw [hAnil]
      rfl
    rw [hct]
    rfl
  · have hsplit : splitOnChar '\n' (clean_extracted_text t) = cleanLines (splitOnChar '\n' t) :=
      splitOnChar_joinWith hAnil fun x hx => (passProps x hx).2
    have hc2 : clean_extracted_text (clean_extracted_text t)
        = joinWith '\n' (cleanLines (cleanLines (splitOnChar '\n' t))) := by
      show joinWith '\n' (cleanLines (splitOnChar '\n' (clean_extracted_text t)))
          = joinWith '\n' (cleanLines (cleanLines (splitOnChar '\n' t)))
      rw [hsplit]
    -- the lines of a second pass are stable under a further pass
    have hstable : ∀ o ∈ cleanLines (cleanLines (splitOnChar '\n' t)),
        keepLine o = true ∧ pyStrip o = o ∧ '\n' ∉ o := by
      intro o ho
      rcases mem_cleanLines ho with ⟨l, hl, hk, rfl⟩
      have hlp := passProps l hl
      rw [hlp.1]
      exact ⟨hk, hlp.1, hlp.2⟩
    rw [hc2]
    exact clean_extracted_text_of_stable hstable

/-! ## Helper lemmas about the handlers -/

theorem strList_map_str (ls : List (List Char)) :
    strListOfJson.strList (ls.map Json.str) = some ls := by
  induction ls with
  | nil => rfl
  | cons a rest ih => simp [strListOfJson.strList, ih]

theorem strListOfJson_map_str (ls : List (List Char)) :
    strListOfJson (Json.arr (ls.map Json.str)) = some ls := by
  unfold strListOfJson
  exact strList_map_str ls

theorem optJsonEqStr_eq_some {o : Option Json} {t : List Char}
    (h : optJsonEqStr o t = true) : o = some (Json.str t) := by
  cases o with
  | none => simp [optJsonEqStr] at h
  | some j =>
    cases j <;> simp [optJsonEqStr, jsonEqStr] at h
    rw [h]

theorem comprehend_status (env : Env) (t : Json) :
    (comprehend_sentiment_handler env t).statusCode = 200 ∨
      (comprehend_sentiment_handler env t).statusCode = 500 := by
  unfold comprehend_sentiment_handler
  split <;> simp

theorem polly_status (env : Env) (t : Json) :
    (polly_handler env t).statusCode = 200 ∨ (polly_handler env t).statusCode = 500 := by
  unfold polly_handler
  split <;> simp

theorem transcribe_ok_status (env : Env) (a : Json) (r : Response)
    (h : transcribe_handler env a = .ok r) :
    r.statusCode = 200 ∨ r.statusCode = 500 := by
  unfold transcribe_handler at h
  repeat' split at h
  all_goals first
    | exact Except.noConfusion h
    | (injection h with h2; subst h2; simp)

theorem rekognition_run_ok (env : Env) (rt img : Json) (r : Response)
    (h : rekognition_run env rt img = .ok r) :
    r.statusCode = 200 ∨ r.statusCode = 400 := by
  unfold rekognition_run at h
  repeat' split at h
  all_goals first
    | exact Except.noConfusion h
    | (injection h with h2; subst h2; simp)

theorem rekognition_status (env : Env) (rt img : Json) :
    (rekognition_handler env rt img).statusCode = 200 ∨
      (rekognition_handler env rt img).statusCode = 400 ∨
      (rekognition_handler env rt img).statusCode = 500 := by
  unfold rekognition_handler
  cases hrun : rekognition_run env rt img with
  | error e => simp
  | ok r =>
    rcases rekognition_run_ok env rt img r hrun with h | h
    · left; simpa using h
    · right; left; simpa using h

theorem textract_run_ok (env : Env) (ev : Event) (r : Response)
    (h : textract_run env ev = .ok r) :
    r.statusCode = 400 ∨ ∃ ls : List (List Char), r = ⟨200, true, Json.arr (ls.map Json.str)⟩ := by
  unfold textract_run textract_ocr_stage fetch_file_from_url at h
  repeat' split at h
  all_goals try dsimp only at h
  all_goals first
    | exact Except.noConfusion h
    | (injection h with h2; subst h2; first
        | (left; rfl)
        | (right; exact ⟨_, rfl⟩))

theorem textract_handler_cases (env : Env) (ev : Event) :
    (∃ msg, textract_handler env ev = ⟨500, false, errJson msg⟩) ∨
      (textract_handler env ev).statusCode = 400 ∨
      ∃ ls : List (List Char), textract_handler env ev = ⟨200, true, Json.arr (ls.map Json.str)⟩ := by
  unfold textract_handler
  cases hrun : textract_run env ev with
  | error e => left; exact ⟨_, rfl⟩
  | ok r =>
    rcases textract_run_ok env ev r hrun with h | ⟨ls, rfl⟩
    · right; left; simpa using h
    · right; right; exact ⟨ls, rfl⟩

theorem textract_status (env : Env) (ev : Event) :
    (textract_handler env ev).statusCode = 200 ∨
      (textract_handler env ev).statusCode = 400 ∨
      (textract_handler env ev).statusCode = 500 := by
  rcases textract_handler_cases env ev with ⟨msg, hm⟩ | h | ⟨ls, hl⟩
  · right; right; rw [hm]
  · right; left; exact h
  · left; rw [hl]

theorem textract_200_shape (env : Env) (ev : Event)
    (h : (textract_handler env ev).statusCode = 200) :
    ∃ ls : List (List Char), textract_handler env ev = ⟨200, true, Json.arr (ls.map Json.str)⟩ := by
  rcases textract_handler_cases env ev with ⟨msg, hm⟩ | h4 | ⟨ls, hl⟩
  · rw [hm] at h; simp at h
  · rw [h] at h4; simp at h4
  · exact ⟨ls, hl⟩

theorem composer_of_not200 (env : Env) (ev : Event)
    (h : (textract_handler env ev).statusCode ≠ 200) :
    textract_comprehend_handler env ev = .ok (textract_handler env ev) := by
  unfold textract_comprehend_handler
  rw [if_pos h]

theorem composer_of_ok (env : Env) (ev : Event) (lines : List (List Char))
    (ht : textract_handler env ev = ⟨200, true, Json.arr (lines.map Json.str)⟩) :
    textract_comprehend_handler env ev =
      .ok ⟨200, true, Json.obj
        [("ExtractedText".toList,
            Json.arr ((splitOnChar ' ' (joinWith ' ' lines)).map Json.str)),
         ("SentimentAnalysis".toList,
            (comprehend_sentiment_handler env (Json.str (joinWith ' ' lines))).body)]⟩ := by
  unfold textract_comprehend_handler
  rw [ht]
  rw [if_neg (fun hne => hne rfl)]
  rw [strListOfJson_map_str]

theorem composer_total (env : Env) (ev : Event) :
    ∃ r, textract_comprehend_handler env ev = .ok r ∧
      (r.statusCode = 200 ∨ r.statusCode = 400 ∨ r.statusCode = 500) := by
  by_cases h200 : (textract_handler env ev).statusCode = 200
  · rcases textract_200_shape env ev h200 with ⟨ls, hl⟩
    exact ⟨_, composer_of_ok env ev ls hl, Or.inl rfl⟩
  · exact ⟨_, composer_of_not200 env ev h200, textract_status env ev⟩

theorem textract_handler_sentiment_irrel (env : Env)
    (s : Json → Except (List Char) (Json × Json)) (ev : Event) :
    textract_handler { env with sentiment := s } ev = textract_handler env ev := by
  cases env
  rfl


/-! ## Claim C3 -/

/-- Claim C3 (code behaviour at the failing input): a textract request
whose body is the JSON object `\x7b\x7d` — i.e. one lacking `source_type`
— makes `body["source_type"]` raise `KeyError`, which the catch-all
`except` converts into a 500, not the claimed 400.  The in-code 400
branch `Missing or invalid "source_type" in the request.` is unreachable
for a missing key, which shows the 400 was the intent. -/
theorem C3_missing_source_type_is_500 :
    textract_handler c3Env ⟨some "\x7b\x7d".toList⟩ =
      ⟨500, false,
        errJson "Failed to process the document: \x27source_type\x27".toList⟩ := by
  rfl

/-! ## Claim C4 -/

/-- Claim C4: an envelope whose `action` is missing or equal (as a JSON
string comparison) to none of the six recognized values makes
`lambda_handler` return exactly
`{statusCode: 400, body: {"error": "Invalid action specified."}}` (no
headers block), for every oracle environment — so no handler is
invoked. -/
theorem C4_invalid_action (env : Env) (ev : Event) (s : List Char)
    (fs : List (List Char × Json))
    (hb : ev.body = some s)
    (hp : env.parseJson s = .ok (Json.obj fs))
    (ha : ∀ n ∈ (["textract", "comprehend", "textract-comprehend", "polly",
        "transcribe", "rekognition"] : List String),
      optJsonEqStr (assocGet "action".toList fs) n.toList = false) :
    lambda_handler env ev =
      .ok ⟨400, false, errJson "Invalid action specified.".toList⟩ := by
  unfold lambda_handler
  rw [hb]
  dsimp only
  rw [hp]
  dsimp only [dictGetOpt]
  rw [if_neg (by rw [ha "textract" (by simp)]; exact Bool.false_ne_true),
    if_neg (by rw [ha "comprehend" (by simp)]; exact Bool.false_ne_true),
    if_neg (by rw [ha "textract-comprehend" (by simp)]; exact Bool.false_ne_true),
    if_neg (by rw [ha "polly" (by simp)]; exact Bool.false_ne_true),
    if_neg (by rw [ha "transcribe" (by simp)]; exact Bool.false_ne_true),
    if_neg (by rw [ha "rekognition" (by simp)]; exact Bool.false_ne_true)]

theorem C4_invalid_action_witness :
    lambda_handler c4Env ⟨some "x".toList⟩ =
      .ok ⟨400, false, errJson "Invalid action specified.".toList⟩ :=
  C4_invalid_action c4Env ⟨some "x".toList⟩ "x".toList
    [("action".toList, Json.str "bogus".toList)] rfl rfl (by decide)

/-! ## Claim C5 -/

/-- Claim C5: whenever the Document-Text Extractor returns a non-200
response, the Composer returns that response unchanged; the result is
the same for every sentiment oracle, so the Sentiment Scorer is never
invoked. -/
theorem C5_short_circuit (env : Env)
    (s : Json → Except (List Char) (Json × Json)) (ev : Event)
    (h : (textract_handler env ev).statusCode ≠ 200) :
    textract_comprehend_handler { env with sentiment := s } ev =
      .ok (textract_handler env ev) := by
  have hirr := textract_handler_sentiment_irrel env s ev
  unfold textract_comprehend_handler
  rw [hirr, if_pos h]

theorem C5_short_circuit_witness :
    textract_comprehend_handler
        { stubEnv with sentiment := fun _ => .error "unused".toList } ⟨none⟩ =
      .ok (textract_handler stubEnv ⟨none⟩) :=
  C5_short_circuit stubEnv (fun _ => .error "unused".toList) ⟨none⟩ (by decide)

/-! ## Claim C6 -/

/-- Claim C6 (counterexample): extraction succeeds, the Sentiment Scorer
stage fails with a 500, yet the Composer returns a 200 carrying the
failing stage's error body inside `SentimentAnalysis` — it does not
propagate the failing stage's response unchanged. -/
theorem C6_counterexample :
    textract_comprehend_handler c6Env ⟨some "b".toList⟩ =
      .ok ⟨200, true, Json.obj
        [("ExtractedText".toList, Json.arr [Json.str "Hello!".toList]),
         ("SentimentAnalysis".toList,
            errJson "Failed to analyze sentiment: boom".toList)]⟩ ∧
    (comprehend_sentiment_handler c6Env (Json.str "Hello!".toList)).statusCode = 500 ∧
    textract_comprehend_handler c6Env ⟨some "b".toList⟩ ≠
      .ok (comprehend_sentiment_handler c6Env (Json.str "Hello!".toList)) := by
  refine ⟨rfl, rfl, fun hcontra => ?_⟩
  have h1 : textract_comprehend_handler c6Env ⟨some "b".toList⟩ =
      .ok ⟨200, true, Json.obj
        [("ExtractedText".toList, Json.arr [Json.str "Hello!".toList]),
         ("SentimentAnalysis".toList,
            errJson "Failed to analyze sentiment: boom".toList)]⟩ := rfl
  have h2 : (comprehend_sentiment_handler c6Env (Json.str "Hello!".toList)).statusCode
      = 500 := rfl
  rw [h1] at hcontra
  injection hcontra with h3
  have h4 := congrArg Response.statusCode h3
  rw [h2] at h4
  simp at h4

/-- Claim C6 (amended): when extraction succeeds but the Sentiment Scorer
fails, the Composer does not propagate the failing stage's response; it
returns a 200 whose `SentimentAnalysis` field carries the failing
stage's error body (only extraction-stage failures short-circuit). -/
theorem C6_sentiment_failure_wrapped (env : Env) (ev : Event)
    (lines : List (List Char)) (e : List Char)
    (ht : textract_handler env ev = ⟨200, true, Json.arr (lines.map Json.str)⟩)
    (hs : env.sentiment (Json.str (joinWith ' ' lines)) = .error e) :
    textract_comprehend_handler env ev =
      .ok ⟨200, true, Json.obj
        [("ExtractedText".toList,
            Json.arr ((splitOnChar ' ' (joinWith ' ' lines)).map Json.str)),
         ("SentimentAnalysis".toList,
            errJson ("Failed to analyze sentiment: ".toList ++ e))]⟩ := by
  rw [composer_of_ok env ev lines ht]
  unfold comprehend_sentiment_handler
  rw [hs]

theorem C6_sentiment_failure_wrapped_witness :
    textract_comprehend_handler c6Env ⟨some "w".toList⟩ =
      .ok ⟨200, true, Json.obj
        [("ExtractedText".toList,
            Json.arr ((splitOnChar ' ' (joinWith ' ' ["Hello!".toList])).map Json.str)),
         ("SentimentAnalysis".toList,
            errJson ("Failed to analyze sentiment: ".toList ++ "boom".toList))]⟩ :=
  C6_sentiment_failure_wrapped c6Env ⟨some "w".toList⟩ ["Hello!".toList]
    "boom".toList rfl rfl

/-! ## Claim C7 -/

/-- Claim C7: when extraction returns the lines `["Hello world", "ok"]`
and the scorer succeeds, the Combined Result carries
`ExtractedText = ["Hello", "world", "ok"]` (lines joined with single
spaces and re-split on single spaces) and the sentiment result
unchanged, with statusCode 200. -/
theorem C7_combined_result (env : Env) (ev : Event) (sres sscore : Json)
    (ht : textract_handler env ev =
      ⟨200, true, Json.arr [Json.str "Hello world".toList, Json.str "ok".toList]⟩)
    (hs : env.sentiment (Json.str "Hello world ok".toList) = .ok (sres, sscore)) :
    textract_comprehend_handler env ev =
      .ok ⟨200, true, Json.obj
        [("ExtractedText".toList,
            Json.arr [Json.str "Hello".toList, Json.str "world".toList,
              Json.str "ok".toList]),
         ("SentimentAnalysis".toList,
            Json.obj [("Sentiment".toList, sres), ("SentimentScore".toList, sscore)])]⟩ := by
  have ht2 : textract_handler env ev =
      ⟨200, true, Json.arr (["Hello world".toList, "ok".toList].map Json.str)⟩ := ht
  rw [composer_of_ok env ev ["Hello world".toList, "ok".toList] ht2]
  unfold comprehend_sentiment_handler
  rw [show Json.str (joinWith ' ' ["Hello world".toList, "ok".toList])
      = Json.str "Hello world ok".toList from rfl]
  rw [hs]
  rfl

theorem C7_combined_result_witness :
    textract_comprehend_handler c7Env ⟨some "w".toList⟩ =
      .ok ⟨200, true, Json.obj
        [("ExtractedText".toList,
            Json.arr [Json.str "Hello".toList, Json.str "world".toList,
              Json.str "ok".toList]),
         ("SentimentAnalysis".toList,
            Json.obj [("Sentiment".toList, Json.str "NEUTRAL".toList),
              ("SentimentScore".toList, Json.obj [])])]⟩ :=
  C7_combined_result c7Env ⟨some "w".toList⟩ (Json.str "NEUTRAL".toList) (Json.obj [])
    rfl rfl

/-! ## Claim C8 -/

theorem cleanLines_split_join (texts : List (List Char))
    (hnl : ∀ l ∈ texts, '\n' ∉ l) :
    cleanLines (splitOnChar '\n' (joinWith '\n' texts)) = cleanLines texts := by
  cases texts with
  | nil => rfl
  | cons a rest => rw [splitOnChar_joinWith (by simp) hnl]

theorem split_clean_join (texts : List (List Char)) (hnl : ∀ l ∈ texts, '\n' ∉ l) :
    splitOnChar '\n' (clean_extracted_text (joinWith '\n' texts)) =
      if cleanLines texts = [] then [[]] else cleanLines texts := by
  have hcl := cleanLines_split_join texts hnl
  by_cases hz : cleanLines texts = []
  · rw [if_pos hz]
    unfold clean_extracted_text
    rw [hcl, hz]
    rfl
  · rw [if_neg hz]
    unfold clean_extracted_text
    rw [hcl]
    apply splitOnChar_joinWith hz
    intro x hx
    rcases mem_cleanLines hx with ⟨l, hl, _, rfl⟩
    exact fun hm => hnl l hl (mem_pyStrip hm)

theorem textract_ocr_stage_result (env : Env) (bytes : List Nat)
    (blocks : List OcrBlock) (texts : List (List Char))
    (hocr : env.ocr bytes = .ok blocks)
    (htexts : texts = (blocks.filter fun b => b.blockType = "LINE".toList).map OcrBlock.text)
    (hnl : ∀ l ∈ texts, '\n' ∉ l) :
    textract_ocr_stage env bytes = .ok ⟨200, true,
      Json.arr ((if cleanLines texts = [] then [[]] else cleanLines texts).map Json.str)⟩ := by
  unfold textract_ocr_stage
  rw [hocr]
  dsimp only
  rw [← htexts]
  rw [split_clean_join texts hnl]

/-- Claim C8 (amended): on every successful invocation — the input bytes
resolved either from a fetched url or from decoded upload content, and
the OCR call succeeding — the Extraction Result is the cleaned LINE
texts in OCR order: the kept raw lines form a sublist of the OCR line
texts, each kept line has raw (pre-trim) length > 4 (not trimmed length,
as claimed) and no raw URL prefix, and the body holds their stripped
forms (which may be empty strings, not necessarily non-empty) — except
that when everything is filtered out the body is `[""]` (a single empty
line), not the empty sequence. -/
theorem C8_extraction_result (env : Env) (ev : Event) (s : List Char)
    (body st fc : Json) (bytes : List Nat) (blocks : List OcrBlock)
    (texts : List (List Char))
    (hb : ev.body = some s)
    (hp : env.parseJson s = .ok body)
    (hst : dictGet body "source_type".toList = .ok st)
    (htr : truthy st = true)
    (hfc : dictGet body "file_content".toList = .ok fc)
    (hres : (jsonEqStr st "url".toList = true ∧
        fetch_file_from_url env fc = some bytes) ∨
      (jsonEqStr st "url".toList = false ∧ jsonEqStr st "upload".toList = true ∧
        env.b64decode fc = .ok bytes))
    (hocr : env.ocr bytes = .ok blocks)
    (htexts : texts = (blocks.filter fun b => b.blockType = "LINE".toList).map OcrBlock.text)
    (hnl : ∀ l ∈ texts, '\n' ∉ l) :
    ∃ kept : List (List Char),
      kept.Sublist texts ∧
      (∀ l ∈ kept,
        (startsWith "http://".toList l || startsWith "https://".toList l) = false ∧
        l.length > 4) ∧
      cleanLines texts = kept.map pyStrip ∧
      textract_handler env ev = ⟨200, true,
        Json.arr ((if cleanLines texts = [] then [[]] else cleanLines texts).map Json.str)⟩ := by
  refine ⟨texts.filter keepLine, List.filter_sublist _, ?_, cleanLines_eq_map_filter _, ?_⟩
  · intro l hl
    have hk := List.of_mem_filter hl
    unfold keepLine at hk
    simp only [Bool.and_eq_true, Bool.not_eq_true', decide_eq_true_eq] at hk
    exact ⟨hk.1, hk.2⟩
  · have hstage := textract_ocr_stage_result env bytes blocks texts hocr htexts hnl
    unfold textract_handler textract_run
    rw [hb]
    dsimp only
    rw [hp]
    dsimp only
    rw [hst]
    dsimp only
    rw [if_neg (by simp [htr])]
    rw [hfc]
    dsimp only
    rcases hres with ⟨hu, hw⟩ | ⟨hurl, hupl, hb64⟩
    · rw [if_pos hu]
      rw [hw]
      dsimp only
      rw [hstage]
    · rw [if_neg (by rw [hurl]; exact Bool.false_ne_true), if_pos hupl]
      rw [hb64]
      dsimp only
      rw [hstage]

/-- Claim C8 (counterexample): when every OCR line is filtered out (the
single line `Hi` has length 2), the success body is `[""]` — a
one-element sequence containing an empty string — not an ordered
sequence of non-empty lines and not the empty sequence the claimed edge
case requires. -/
theorem C8_counterexample :
    textract_handler c8Env ⟨some "b".toList⟩ =
      ⟨200, true, Json.arr [Json.str []]⟩ := by
  rfl

theorem C8_extraction_result_witness :
    ∃ kept : List (List Char),
      kept.Sublist ["Hi".toList] ∧
      (∀ l ∈ kept,
        (startsWith "http://".toList l || startsWith "https://".toList l) = false ∧
        l.length > 4) ∧
      cleanLines ["Hi".toList] = kept.map pyStrip ∧
      textract_handler c8UrlEnv ⟨some "x".toList⟩ = ⟨200, true,
        Json.arr ((if cleanLines ["Hi".toList] = [] then [[]]
          else cleanLines ["Hi".toList]).map Json.str)⟩ :=
  C8_extraction_result c8UrlEnv ⟨some "x".toList⟩ "x".toList
    (Json.obj [("source_type".toList, Json.str "url".toList),
      ("file_content".toList, Json.str "http://d".toList)])
    (Json.str "url".toList) (Json.str "http://d".toList) [0]
    [⟨"LINE".toList, "Hi".toList⟩] ["Hi".toList]
    rfl rfl rfl rfl rfl (Or.inl ⟨rfl, rfl⟩) rfl rfl (by decide)

/-! ## Claim C9 -/

/-- Claim C9 (counterexample): an event whose `body` is not valid JSON
makes `json.loads` raise inside `lambda_handler`, which has no
`try/except` of its own — the exception escapes the dispatch invocation
instead of becoming a structured 200/400/500 response. -/
theorem C9_counterexample :
    lambda_handler c9Env ⟨some "notjson".toList⟩ =
      .error "Expecting value: line 1 column 1 (char 0)".toList := by
  rfl

/-- Claim C9 (amended): for every event whose `body` string parses to a
JSON object and whose `action` is not `transcribe` (the transcribe
workflow has no `try/except` and may propagate exceptions), the
dispatcher returns a structured response with statusCode in
\x7b200, 400, 500\x7d and no exception escapes. -/
theorem C9_status_codes (env : Env) (ev : Event) (s : List Char)
    (fs : List (List Char × Json))
    (hb : ev.body = some s)
    (hp : env.parseJson s = .ok (Json.obj fs))
    (hnt : optJsonEqStr (assocGet "action".toList fs) "transcribe".toList = false) :
    ∃ r, lambda_handler env ev = .ok r ∧
      (r.statusCode = 200 ∨ r.statusCode = 400 ∨ r.statusCode = 500) := by
  unfold lambda_handler
  rw [hb]
  dsimp only
  rw [hp]
  dsimp only [dictGetOpt]
  by_cases h1 : optJsonEqStr (assocGet "action".toList fs) "textract".toList = true
  · rw [if_pos h1]
    exact ⟨_, rfl, textract_status env ev⟩
  · rw [if_neg h1]
    by_cases h2 : optJsonEqStr (assocGet "action".toList fs) "comprehend".toList = true
    · rw [if_pos h2]
      cases htx : assocGet "text".toList fs with
      | none => exact ⟨_, rfl, by simp⟩
      | some t =>
        dsimp only
        by_cases htt : truthy t = false
        · rw [if_pos htt]
          exact ⟨_, rfl, by simp⟩
        · rw [if_neg htt]
          exact ⟨_, rfl, (comprehend_status env t).imp id Or.inr⟩
    · rw [if_neg h2]
      by_cases h3 : optJsonEqStr (assocGet "action".toList fs)
          "textract-comprehend".toList = true
      · rw [if_pos h3]
        exact composer_total env ev
      · rw [if_neg h3]
        by_cases h4 : optJsonEqStr (assocGet "action".toList fs) "polly".toList = true
        · rw [if_pos h4]
          cases htx : assocGet "text".toList fs with
          | none => exact ⟨_, rfl, by simp⟩
          | some t =>
            dsimp only
            by_cases htt : truthy t = false
            · rw [if_pos htt]
              exact ⟨_, rfl, by simp⟩
            · rw [if_neg htt]
              exact ⟨_, rfl, (polly_status env t).imp id Or.inr⟩
        · rw [if_neg h4]
          rw [if_neg (by rw [hnt]; exact Bool.false_ne_true)]
          by_cases h6 : optJsonEqStr (assocGet "action".toList fs)
              "rekognition".toList = true
          · rw [if_pos h6]
            cases hrt : assocGet "rekognition_type".toList fs with
            | none => exact ⟨_, rfl, by simp⟩
            | some rt =>
              dsimp only
              by_cases hrtt : truthy rt = false
              · rw [if_pos hrtt]
                exact ⟨_, rfl, by simp⟩
              · rw [if_neg hrtt]
                cases him : assocGet "image_data".toList fs with
                | none => exact ⟨_, rfl, by simp⟩
                | some img =>
                  dsimp only
                  by_cases himt : truthy img = false
                  · rw [if_pos himt]
                    exact ⟨_, rfl, by simp⟩
                  · rw [if_neg himt]
                    exact ⟨_, rfl, rekognition_status env rt img⟩
          · rw [if_neg h6]
            exact ⟨_, rfl, by simp⟩

theorem C9_status_codes_witness :
    ∃ r, lambda_handler c4Env ⟨some "y".toList⟩ = .ok r ∧
      (r.statusCode = 200 ∨ r.statusCode = 400 ∨ r.statusCode = 500) :=
  C9_status_codes c4Env ⟨some "y".toList⟩ "y".toList
    [("action".toList, Json.str "bogus".toList)] rfl rfl (by decide)

/-! ## Claim C10 -/

theorem rekognition_run_truthy_shape (env : Env) (rt img : Json)
    (h1 : truthy rt = true) (h2 : truthy img = true) (r : Response)
    (h : rekognition_run env rt img = .ok r) :
    (r.statusCode = 200 ∧ r.corsHeaders = true) ∨
      (r.statusCode = 400 ∧ r.corsHeaders = false) := by
  unfold rekognition_run at h
  rw [h1, h2] at h
  repeat' split at h
  all_goals simp_all
  all_goals subst h
  all_goals simp

theorem rekognition_handler_not_missing (env : Env) (rt img : Json)
    (h1 : truthy rt = true) (h2 : truthy img = true) :
    rekognition_handler env rt img ≠
      ⟨400, true, errJson "Missing \x27rekognition_type\x27 in the request.".toList⟩ ∧
    rekognition_handler env rt img ≠
      ⟨400, true, errJson "Missing \x27image_data\x27.".toList⟩ := by
  constructor <;> intro h <;>
    (unfold rekognition_handler at h
     cases hr : rekognition_run env rt img with
     | error e =>
       rw [hr] at h
       dsimp only at h
       simp [errJson] at h
     | ok r =>
       rw [hr] at h
       dsimp only at h
       rcases rekognition_run_truthy_shape env rt img h1 h2 r hr with ⟨hs, _⟩ | ⟨_, hh⟩
       · subst h
         simp at hs
       · subst h
         simp at hh)

/-- Claim C10: when an envelope dispatches to the rekognition action,
the two in-handler missing-field 400 branches are unreachable — the
dispatcher's own validation produces its 400s (which carry no headers
block) before calling `rekognition_handler`, and once called with
truthy arguments the handler can never produce its headered
missing-field 400 responses. -/
theorem C10_missing_branches_unreachable (env : Env) (ev : Event) (s : List Char)
    (fs : List (List Char × Json))
    (hb : ev.body = some s)
    (hp : env.parseJson s = .ok (Json.obj fs))
    (ha : optJsonEqStr (assocGet "action".toList fs) "rekognition".toList = true) :
    lambda_handler env ev ≠
      .ok ⟨400, true, errJson "Missing \x27rekognition_type\x27 in the request.".toList⟩ ∧
    lambda_handler env ev ≠
      .ok ⟨400, true, errJson "Missing \x27image_data\x27.".toList⟩ := by
  have hA := optJsonEqStr_eq_some ha
  unfold lambda_handler
  rw [hb]
  dsimp only
  rw [hp]
  dsimp only [dictGetOpt]
  rw [hA]
  rw [if_neg (by decide), if_neg (by decide), if_neg (by decide), if_neg (by decide),
    if_neg (by decide), if_pos (by decide)]
  cases hrt : assocGet "rekognition_type".toList fs with
  | none =>
    dsimp only
    exact ⟨by simp [errJson], by simp [errJson]⟩
  | some rt =>
    dsimp only
    by_cases hrtt : truthy rt = false
    · rw [if_pos hrtt]
      exact ⟨by simp [errJson], by simp [errJson]⟩
    · rw [if_neg hrtt]
      have hrt2 : truthy rt = true := by
        cases h : truthy rt with
        | false => exact absurd h hrtt
        | true => rfl
      cases him : assocGet "image_data".toList fs with
      | none =>
        dsimp only
        exact ⟨by simp [errJson], by simp [errJson]⟩
      | some img =>
        dsimp only
        by_cases himt : truthy img = false
        · rw [if_pos himt]
          exact ⟨by simp [errJson], by simp [errJson]⟩
        · rw [if_neg himt]
          have him2 : truthy img = true := by
            cases h : truthy img with
            | false => exact absurd h himt
            | true => rfl
          have hmain := rekognition_handler_not_missing env rt img hrt2 him2
          refine ⟨fun hcon => ?_, fun hcon => ?_⟩
          · injection hcon with h3
            exact hmain.1 h3
          · injection hcon with h3
            exact hmain.2 h3

theorem C10_missing_branches_unreachable_witness :
    lambda_handler c10Env ⟨some "x".toList⟩ ≠
      .ok ⟨400, true, errJson "Missing \x27rekognition_type\x27 in the request.".toList⟩ ∧
    lambda_handler c10Env ⟨some "x".toList⟩ ≠
      .ok ⟨400, true, errJson "Missing \x27image_data\x27.".toList⟩ :=
  C10_missing_branches_unreachable c10Env ⟨some "x".toList⟩ "x".toList
    [("action".toList, Json.str "rekognition".toList)] rfl rfl (by decide)
